import Mathlib

/-!
Shallow embedding of the NameResolution lookup service (src/api/server.py):
the query-construction pipeline (normalization, escaping, filter clauses,
request assembly), the response projection into LookupResult records, and
the single/bulk lookup orchestration, together with theorems about the
behaviour of these functions.
-/

namespace NameRes

/-- Python strings are modelled as lists of characters. -/
abbrev Str := List Char

/-- Decidable equality of fallible results, used to evaluate the model on
concrete inputs. -/
instance exceptDecEq {ε α : Type} [DecidableEq ε] [DecidableEq α] :
    DecidableEq (Except ε α) := fun a b =>
  match a, b with
  | .error e1, .error e2 =>
    if h : e1 = e2 then isTrue (by rw [h])
    else isFalse (fun hc => h (Except.error.inj hc))
  | .error _, .ok _ => isFalse (fun hc => Except.noConfusion hc)
  | .ok _, .error _ => isFalse (fun hc => Except.noConfusion hc)
  | .ok a1, .ok a2 =>
    if h : a1 = a2 then isTrue (by rw [h])
    else isFalse (fun hc => h (Except.ok.inj hc))

/-- The whitespace codepoints stripped by Python str.strip and matched by
the regex whitespace class (ASCII control whitespace plus the Unicode
space characters). -/
def pyIsSpace (c : Char) : Bool :=
  ([0x09, 0x0a, 0x0b, 0x0c, 0x0d, 0x1c, 0x1d, 0x1e, 0x1f, 0x20,
    0x85, 0xa0, 0x1680, 0x2000, 0x2001, 0x2002, 0x2003, 0x2004, 0x2005,
    0x2006, 0x2007, 0x2008, 0x2009, 0x200a, 0x2028, 0x2029, 0x202f,
    0x205f, 0x3000] : List Nat).contains c.toNat

/-- Python str.strip with no argument: remove leading and trailing
whitespace. -/
def pyStrip (s : Str) : Str :=
  (((s.dropWhile pyIsSpace).reverse).dropWhile pyIsSpace).reverse

/-- Python str.lower restricted to ASCII letters; further Unicode
lowercasings exist in Python but never interact with the special
characters handled by this service. -/
def pyLower (s : Str) : Str := s.map Char.toLower

/-- server.py line 396: replace smart single quotes with an ASCII
apostrophe, then smart double quotes with an ASCII double quote. -/
def replaceSmartQuotes (s : Str) : Str :=
  (s.map (fun c => if c = '‘' ∨ c = '’' then '\'' else c)).map
    (fun c => if c = '“' ∨ c = '”' then '"' else c)

/-- server.py lines 387-396: strip, lowercase, then normalize smart
quotes. -/
def normalizeText (s : Str) : Str := replaceSmartQuotes (pyLower (pyStrip s))

/-- Python str.replace with a single-character pattern and an empty
replacement: drop every occurrence of the character. -/
def removeChar (c : Char) (s : Str) : Str := s.filter (fun x => x ≠ c)

/-- server.py line 405: the grouping-safe variant used inside the quoted
exact clause; first every double quote is removed, then every
backslash. -/
def escapeGroupings (s : Str) : Str := removeChar '\\' (removeChar '"' s)

/-- Does c match the regex character class on server.py line 409?  The
class lists bang 0x21, round brackets 0x28 0x29, curly brackets 0x7b
0x7d, square brackets 0x5b 0x5d, caret 0x5e, double quote 0x22, tilde
0x7e, star 0x2a, question mark 0x3f, colon 0x3a and slash 0x2f, and then
the three characters plus, hyphen, backslash: because the hyphen between
plus and the escaped backslash is itself unescaped, the regex engine
reads those three as the codepoint range 0x2b-0x5c. -/
def escClassChar (c : Char) : Bool :=
  (([0x21, 0x28, 0x29, 0x7b, 0x7d, 0x5b, 0x5d, 0x5e, 0x22, 0x7e,
     0x2a, 0x3f, 0x3a, 0x2f] : List Nat).contains c.toNat)
  || (0x2b ≤ c.toNat && c.toNat ≤ 0x5c)

/-- server.py line 409: the re.sub call putting a backslash before every
character matched by the class. -/
def backslashEscape (s : Str) : Str :=
  s.foldr (fun c acc => if escClassChar c then '\\' :: c :: acc else c :: acc) []

/-- Python str.replace, leftmost-first and non-overlapping, driven by a
fuel argument bounded by the length of the subject string (enough fuel,
because every step consumes at least one subject character when the
pattern is non-empty; all call sites use non-empty patterns). -/
def pyReplaceAux (pat repl : Str) : Nat → Str → Str
  | _, [] => []
  | 0, s => s
  | fuel + 1, c :: rest =>
    if pat.isPrefixOf (c :: rest) then
      repl ++ pyReplaceAux pat repl fuel ((c :: rest).drop pat.length)
    else
      c :: pyReplaceAux pat repl fuel rest

/-- Python str.replace pat -> repl on s. -/
def pyReplace (pat repl s : Str) : Str := pyReplaceAux pat repl s.length s

/-- server.py lines 409-410: the fully-escaped variant: backslash-escape
the matched characters, then replace double ampersands and double pipes
by a single space. -/
def escapeEverything (s : Str) : Str :=
  pyReplace (("||").toList) ((" ").toList)
    (pyReplace (("&&").toList) ((" ").toList) (backslashEscape s))

/-- server.py lines 412-416: the composed Solr query string. -/
def composeQuery (string_lc : Str) (autocomplete : Bool) : Str :=
  if autocomplete then
    ['"'] ++ escapeGroupings string_lc ++ (("\" OR (").toList)
      ++ escapeEverything string_lc ++ (("*)").toList)
  else
    ['"'] ++ escapeGroupings string_lc ++ (("\" OR (").toList)
      ++ escapeEverything string_lc ++ ((")").toList)

/-- server.py lines 424-429: per-entry biolink type clause; blank entries
are skipped, a leading biolink: marker (8 characters) is removed. -/
def biolinkTypeFilters (biolink_types : List Str) : List Str :=
  biolink_types.filterMap (fun t =>
    let ts := pyStrip t
    if ts = [] then Option.none
    else some ((("types:").toList)
      ++ (if (("biolink:").toList).isPrefixOf ts then ts.drop 8 else ts)))

/-- Split a list of characters on one separator character; the result
always has at least one piece. -/
def splitOnChar (c : Char) (s : Str) : List Str :=
  s.foldr (fun x acc =>
    match acc with
    | [] => if x = c then [[], []] else [[x]]
    | a :: as => if x = c then [] :: a :: as else (x :: a) :: as) [[]]

/-- Remove leading whitespace. -/
def lstripWs (s : Str) : Str := s.dropWhile pyIsSpace

/-- Remove trailing whitespace. -/
def rstripWs (s : Str) : Str := (s.reverse.dropWhile pyIsSpace).reverse

/-- Helper for reSplitPipeWs: the pieces after the first one lose leading
whitespace, and all but the last also lose trailing whitespace. -/
def reSplitPipeTail : List Str → List Str
  | [] => []
  | [p] => [lstripWs p]
  | p :: ps => lstripWs (rstripWs p) :: reSplitPipeTail ps

/-- Python re.split on the pattern whitespace-star pipe whitespace-star:
split on every pipe, consuming the whitespace adjacent to each pipe; an
input without a pipe is returned as a single unchanged piece. -/
def reSplitPipeWs (s : Str) : List Str :=
  match splitOnChar '|' s with
  | [] => []
  | [p] => [p]
  | p :: ps => rstripWs p :: reSplitPipeTail ps

/-- server.py lines 433-437: include-prefix regex clauses. -/
def onlyPrefixFilters (only_prefixes : Str) : List Str :=
  (reSplitPipeWs only_prefixes).map
    (fun p => (("curie:/").toList) ++ p ++ ((":.*/").toList))

/-- server.py lines 440-444: negated exclude-prefix regex clauses. -/
def excludePrefixFilters (exclude_prefixes : Str) : List Str :=
  (reSplitPipeWs exclude_prefixes).map
    (fun p => (("NOT curie:/").toList) ++ p ++ ((":.*/").toList))

/-- server.py lines 448-460: the taxa filter clause, one quoted exact
taxon clause per taxon plus the clause admitting documents without a
taxon restriction, wrapped in round brackets. -/
def taxaFilterClause (only_taxa : Str) : Str :=
  let taxon_ids := reSplitPipeWs only_taxa
  let taxa_filters := taxon_ids.map
      (fun t => (("taxa:\"").toList) ++ t ++ (("\"").toList))
    ++ [(("taxon_specific:false").toList)]
  (("(").toList) ++ List.intercalate ((" OR ").toList) taxa_filters ++ ((")").toList)

/-- server.py lines 419-460: the filter list in construction order; each
block appends one clause when its input is truthy (non-empty). -/
def buildFilters (biolink_types : List Str)
    (only_prefixes exclude_prefixes only_taxa : Str) : List Str :=
  (if biolink_types ≠ [] then
    [List.intercalate ((" OR ").toList) (biolinkTypeFilters biolink_types)]
   else [])
  ++ (if only_prefixes ≠ [] then
    [List.intercalate ((" OR ").toList) (onlyPrefixFilters only_prefixes)]
   else [])
  ++ (if exclude_prefixes ≠ [] then
    [List.intercalate ((" AND ").toList) (excludePrefixFilters exclude_prefixes)]
   else [])
  ++ (if only_taxa ≠ [] then
    (if reSplitPipeWs only_taxa ≠ [] then [taxaFilterClause only_taxa] else [])
   else [])

/-- server.py lines 105-111: the Solr debug options enumeration. -/
inductive DebugOptions
  | dnone
  | dquery
  | timing
  | results
  | dall
deriving DecidableEq

/-- The string value of each debug option. -/
def DebugOptions.toStr : DebugOptions → Str
  | .dnone => (("none").toList)
  | .dquery => (("query").toList)
  | .timing => (("timing").toList)
  | .results => (("results").toList)
  | .dall => (("all").toList)

/-- server.py lines 463-477: the inner params dict, holding the
highlighting parameters when requested and the debug level when it is
set and differs from none. -/
def innerParams (highlighting : Bool) (debug : Option DebugOptions) :
    List (Str × Str) :=
  (if highlighting then
    [((("hl").toList), (("true").toList)),
     ((("hl.method").toList), (("unified").toList)),
     ((("hl.encoder").toList), (("html").toList)),
     ((("hl.tag.pre").toList), (("<strong>").toList)),
     ((("hl.tag.post").toList), (("</strong>").toList))]
   else [])
  ++ (match debug with
      | some d => if d ≠ DebugOptions.dnone then [((("debug").toList), d.toStr)] else []
      | Option.none => [])

/-- The structured Solr request assembled by lookup (server.py lines
479-504). -/
structure SearchRequest where
  query : Str
  qf : Str
  pf : Str
  bq : List Str
  boost : List Str
  sort : Str
  limit : Int
  offset : Int
  filter : List Str
  fields : Str
  params : List (Str × Str)
deriving DecidableEq

/-- server.py lines 479-504: assemble the Solr request body. -/
def buildSearchRequest (string_lc : Str) (autocomplete highlighting : Bool)
    (offset limit : Int) (biolink_types : List Str)
    (only_prefixes exclude_prefixes only_taxa : Str)
    (debug : Option DebugOptions) : SearchRequest where
  query := composeQuery string_lc autocomplete
  qf := (("preferred_name_exactish^250 names_exactish^100 preferred_name^25 names^10").toList)
  pf := (("preferred_name_exactish^300 names_exactish^200 preferred_name^30 names^20").toList)
  bq := []
  boost := [(("log(sum(clique_identifier_count, 1))").toList)]
  sort := (("score DESC, clique_identifier_count DESC, curie_suffix ASC").toList)
  limit := limit
  offset := offset
  filter := buildFilters biolink_types only_prefixes exclude_prefixes only_taxa
  fields := (("*, score").toList)
  params := innerParams highlighting debug

/-- A Solr document as consumed by the projection loop (server.py lines
528-576); the id key is always present, the remaining keys are read with
doc.get and a default, so they are optional here. -/
structure SolrDoc where
  id : Str
  curie : Option Str
  preferred_name : Option Str
  names : Option (List Str)
  taxa : Option (List Str)
  types : Option (List Str)
  clique_identifier_count : Option Int
  score : Option Rat
deriving DecidableEq

/-- The per-document highlighting entry: the four field keys read on
server.py lines 536-548, each optional. -/
structure HlEntry where
  preferred_name_exactish : Option (List Str)
  preferred_name : Option (List Str)
  names_exactish : Option (List Str)
  names : Option (List Str)
deriving DecidableEq

/-- The overall Solr debug section: the explain key (a map from document
id to explain text) and the remaining entries kept opaque. -/
structure DebugPayload where
  explain : Option (List (Str × Str))
  rest : List (Str × Str)
deriving DecidableEq

/-- The decoded Solr response consumed by lookup: the document list, the
optional highlighting section (absent modelled as the empty map, matching
response.get with a default of the empty dict) and the optional debug
section. -/
structure EngineResponse where
  docs : List SolrDoc
  highlighting : List (Str × HlEntry)
  debug : Option DebugPayload
deriving DecidableEq

/-- A float value as held by the public score field: either an ordinary
number or the not-a-number sentinel. -/
inductive PFloat
  | num (q : Rat)
  | nan
deriving DecidableEq

/-- The public result record (server.py lines 221-231). -/
structure LookupResult where
  curie : Str
  label : Str
  highlighting : List (Str × List Str)
  synonyms : List Str
  taxa : List Str
  types : List Str
  score : PFloat
  clique_identifier_count : Int
  explain : Option Str
  debug : Option DebugPayload
deriving DecidableEq

/-- Python dict lookup on an association list: the value at the first
matching key, if any. -/
def alookup {α : Type} (k : Str) : List (Str × α) → Option α
  | [] => Option.none
  | (k2, v) :: rest => if k2 = k then some v else alookup k rest

/-- server.py line 571 combined with the pydantic validation of the
score field (line 228): doc.get yields the score number when present and
the empty string when absent; pydantic's float field accepts the number
as-is and rejects the empty string, because Python float applied to the
empty string raises ValueError. -/
def projectScore : Option Rat → Except Str PFloat
  | some q => .ok (.num q)
  | Option.none => .error (("Input should be a valid number").toList)

/-- The contract of Python set construction followed by list conversion:
the output enumerates each distinct element of the input exactly once, in
an unspecified (hash-seed dependent) order. -/
def IsPySetEnum (f : List Str → List Str) : Prop :=
  ∀ l, (f l).Nodup ∧ ∀ x, x ∈ f l ↔ x ∈ l

/-- server.py lines 529-551: the label and synonym highlight fragment
lists for one document: when the document id has a highlighting entry,
concatenate the exactish fragments with the plain fragments, pass the
concatenation through a set (the setEnum parameter) and keep the
non-empty fragments; otherwise both lists stay empty. -/
def hlMatches (setEnum : List Str → List Str)
    (hlResp : List (Str × HlEntry)) (docId : Str) : List Str × List Str :=
  match alookup docId hlResp with
  | Option.none => ([], [])
  | some m =>
    ((setEnum ((m.preferred_name_exactish.getD []) ++ (m.preferred_name.getD []))).filter
        (fun s => !s.isEmpty),
     (setEnum ((m.names_exactish.getD []) ++ (m.names.getD []))).filter
        (fun s => !s.isEmpty))

/-- server.py lines 528-576: project one Solr document into a
LookupResult.  explainInfo is the per-document explain map captured on
lines 517-519; finalDebug is the debug dict attached to every result:
the same Python object is attached to the whole batch, so its observed
value is the value after the loop finishes (see finalDebugPayload). -/
def projectDoc (setEnum : List Str → List Str) (highlighting : Bool)
    (debug : Option DebugOptions) (hlResp : List (Str × HlEntry))
    (explainInfo : List (Str × Str)) (finalDebug : Option DebugPayload)
    (doc : SolrDoc) : Except Str LookupResult :=
  let pmSm := hlMatches setEnum hlResp doc.id
  let explainDoc :=
    if debug = some DebugOptions.results ∨ debug = some DebugOptions.dall then
      alookup doc.id explainInfo
    else Option.none
  match projectScore doc.score with
  | .error e => .error e
  | .ok sc => .ok
    { curie := doc.curie.getD []
      label := doc.preferred_name.getD []
      highlighting :=
        if highlighting then
          [((("labels").toList), pmSm.1), ((("synonyms").toList), pmSm.2)]
        else []
      synonyms := doc.names.getD []
      score := sc
      taxa := doc.taxa.getD []
      clique_identifier_count := doc.clique_identifier_count.getD 0
      types := (doc.types.getD []).map (fun d => (("biolink:").toList) ++ d)
      explain := explainDoc
      debug := finalDebug }

/-- server.py lines 527-576: project every document; a validation error
while building one record aborts the whole request. -/
def projectDocs (setEnum : List Str → List Str) (highlighting : Bool)
    (debug : Option DebugOptions) (hlResp : List (Str × HlEntry))
    (explainInfo : List (Str × Str)) (finalDebug : Option DebugPayload) :
    List SolrDoc → Except Str (List LookupResult)
  | [] => .ok []
  | doc :: rest =>
    match projectDoc setEnum highlighting debug hlResp explainInfo finalDebug doc with
    | .error e => .error e
    | .ok r =>
      match projectDocs setEnum highlighting debug hlResp explainInfo finalDebug rest with
      | .error e => .error e
      | .ok rs => .ok (r :: rs)

/-- server.py lines 517-519: the per-document explain map, present when
the response has a debug section holding an explain key. -/
def explainInfoOf (resp : EngineResponse) : List (Str × Str) :=
  match resp.debug with
  | some d => d.explain.getD []
  | Option.none => []

/-- The placeholder dict written into the shared debug section when a
per-result explain payload is attached (server.py line 561). -/
def placeholderExplain : List (Str × Str) :=
  [((("_comment").toList), (("Removed to avoid data duplication").toList))]

/-- Does some document of the batch have an entry in the explain map? -/
def anyDocHasExplain (docs : List SolrDoc) (explainInfo : List (Str × Str)) : Bool :=
  docs.any (fun doc => (alookup doc.id explainInfo).isSome)

/-- server.py lines 554-561: every result is handed the same debug dict
(response.get of the debug key); when the debug level is results or all
and some document of the batch has an explain entry, the loop overwrites
the explain key of that shared dict with the placeholder, and every
result observes the overwritten value. -/
def finalDebugPayload (debug : Option DebugOptions) (resp : EngineResponse) :
    Option DebugPayload :=
  match resp.debug with
  | Option.none => Option.none
  | some d =>
    if (debug = some DebugOptions.results ∨ debug = some DebugOptions.dall)
        ∧ anyDocHasExplain resp.docs (explainInfoOf resp) then
      some { d with explain := some placeholderExplain }
    else some d

/-- server.py lines 362-584: the lookup orchestration.  The engine
parameter models the Solr POST endpoint; the result carries the projected
outputs (or the first projection error) together with the number of
engine calls performed. -/
def lookupRun (setEnum : List Str → List Str)
    (engine : SearchRequest → EngineResponse) (string : Str)
    (autocomplete highlighting : Bool) (offset limit : Int)
    (biolink_types : List Str) (only_prefixes exclude_prefixes only_taxa : Str)
    (debug : Option DebugOptions) : Except Str (List LookupResult) × Nat :=
  let string_lc := normalizeText string
  if string_lc = [] then (.ok [], 0)
  else
    let req := buildSearchRequest string_lc autocomplete highlighting offset limit
      biolink_types only_prefixes exclude_prefixes only_taxa debug
    let resp := engine req
    (projectDocs setEnum highlighting debug resp.highlighting (explainInfoOf resp)
      (finalDebugPayload debug resp) resp.docs, 1)

/-- server.py lines 588-646: the bulk request body. -/
structure NameResQuery where
  strings : List Str
  autocomplete : Bool
  highlighting : Bool
  offset : Int
  limit : Int
  biolink_types : List Str
  only_prefixes : Str
  exclude_prefixes : Str
  only_taxa : Str
  debug : Option DebugOptions

/-- Python dict assignment on an association list: overwrite the value at
the first occurrence of the key, keeping its position, or append a new
entry at the end. -/
def dictUpsert {α : Type} (k : Str) (v : α) : List (Str × α) → List (Str × α)
  | [] => [(k, v)]
  | (k2, v2) :: rest =>
    if k2 = k then (k, v) :: rest else (k2, v2) :: dictUpsert k v rest

/-- server.py lines 657-674: the bulk loop, threading the accumulated
result dict and the number of engine calls made so far; the engine is
indexed by the call count so that distinct calls may observe distinct
engine states.  An exception raised by one lookup aborts the whole bulk
request. -/
def bulkLookupAux (setEnum : List Str → List Str)
    (engine : Nat → SearchRequest → EngineResponse) (q : NameResQuery) :
    List Str → List (Str × List LookupResult) → Nat →
    Except Str (List (Str × List LookupResult)) × Nat
  | [], acc, n => (.ok acc, n)
  | s :: rest, acc, n =>
    match lookupRun setEnum (engine n) s q.autocomplete q.highlighting q.offset
      q.limit q.biolink_types q.only_prefixes q.exclude_prefixes q.only_taxa
      q.debug with
    | (.ok rs, k) => bulkLookupAux setEnum engine q rest (dictUpsert s rs acc) (n + k)
    | (.error e, k) => (.error e, n + k)

/-- server.py lines 657-674: run one lookup per input string, in order,
collecting the results into a dict keyed by the input string. -/
def bulkLookupRun (setEnum : List Str → List Str)
    (engine : Nat → SearchRequest → EngineResponse) (q : NameResQuery) :
    Except Str (List (Str × List LookupResult)) × Nat :=
  bulkLookupAux setEnum engine q q.strings [] 0

/-- First occurrences of the elements of a list that are not in seen, in
order. -/
def dedupKeepFirstAux (seen : List Str) : List Str → List Str
  | [] => []
  | x :: xs =>
    if x ∈ seen then dedupKeepFirstAux seen xs
    else x :: dedupKeepFirstAux (x :: seen) xs

/-- The distinct elements of a list, each at its first occurrence. -/
def dedupKeepFirst (l : List Str) : List Str := dedupKeepFirstAux [] l

/-- How many engine calls one lookup of the string t consumes. -/
def callsUsed (t : Str) : Nat := if normalizeText t = [] then 0 else 1

/-- Modelled from the words of the bulk-lookup contract, the result of
the last lookup performed for the string s: walk the input strings
keeping track of the engine-call offset, and return the successful
result of the lookup executed at the offset of the last occurrence of
s. -/
def lastOkFor (setEnum : List Str → List Str)
    (engine : Nat → SearchRequest → EngineResponse) (q : NameResQuery)
    (s : Str) : List Str → Nat → Option (List LookupResult)
  | [], _ => Option.none
  | t :: rest, n =>
    match lastOkFor setEnum engine q s rest (n + callsUsed t) with
    | some v => some v
    | Option.none =>
      if t = s then
        (lookupRun setEnum (engine n) t q.autocomplete q.highlighting q.offset
          q.limit q.biolink_types q.only_prefixes q.exclude_prefixes q.only_taxa
          q.debug).1.toOption
      else Option.none

/-- Modelled from the public-contract words for the type list: prefix a
type with the namespace marker when it is not already so prefixed. -/
def specNamespacedTypes (types : List Str) : List Str :=
  types.map (fun t =>
    if (("biolink:").toList).isPrefixOf t then t else (("biolink:").toList) ++ t)

/- Helper lemmas. -/

/-- A successful projection forces the document to carry a score, and the
record is exactly the one assembled on server.py lines 564-576. -/
theorem projectDoc_ok (setEnum : List Str → List Str) (hl : Bool)
    (dbg : Option DebugOptions) (hlResp : List (Str × HlEntry))
    (expl : List (Str × Str)) (fd : Option DebugPayload) (doc : SolrDoc)
    (r : LookupResult) (h : projectDoc setEnum hl dbg hlResp expl fd doc = .ok r) :
    ∃ q, doc.score = some q ∧ r =
      { curie := doc.curie.getD []
        label := doc.preferred_name.getD []
        highlighting :=
          if hl then
            [((("labels").toList), (hlMatches setEnum hlResp doc.id).1),
             ((("synonyms").toList), (hlMatches setEnum hlResp doc.id).2)]
          else []
        synonyms := doc.names.getD []
        score := .num q
        taxa := doc.taxa.getD []
        clique_identifier_count := doc.clique_identifier_count.getD 0
        types := (doc.types.getD []).map (fun d => (("biolink:").toList) ++ d)
        explain :=
          if dbg = some DebugOptions.results ∨ dbg = some DebugOptions.dall
          then alookup doc.id expl else Option.none
        debug := fd } := by
  cases hs : doc.score with
  | none => simp [projectDoc, projectScore, hs] at h
  | some q =>
    refine ⟨q, rfl, ?_⟩
    simp [projectDoc, projectScore, hs] at h
    exact h.symm

/-- A successful batch projection relates documents and results
pointwise. -/
theorem projectDocs_forall2 (setEnum : List Str → List Str) (hl : Bool)
    (dbg : Option DebugOptions) (hlResp : List (Str × HlEntry))
    (expl : List (Str × Str)) (fd : Option DebugPayload) :
    ∀ (docs : List SolrDoc) (rs : List LookupResult),
      projectDocs setEnum hl dbg hlResp expl fd docs = .ok rs →
      List.Forall₂ (fun doc r =>
        projectDoc setEnum hl dbg hlResp expl fd doc = .ok r) docs rs := by
  intro docs
  induction docs with
  | nil =>
    intro rs h
    simp [projectDocs] at h
    subst h
    constructor
  | cons doc rest ih =>
    intro rs h
    simp only [projectDocs] at h
    cases hd : projectDoc setEnum hl dbg hlResp expl fd doc with
    | error e => rw [hd] at h; simp at h
    | ok r =>
      rw [hd] at h
      cases hrest : projectDocs setEnum hl dbg hlResp expl fd rest with
      | error e => rw [hrest] at h; simp at h
      | ok rs2 =>
        rw [hrest] at h
        simp at h
        subst h
        exact List.Forall₂.cons hd (ih rs2 hrest)

/-- Each right element of a Forall₂ pair has a related left element. -/
theorem forall2_mem_right {α β : Type} {R : α → β → Prop} :
    ∀ {as : List α} {bs : List β}, List.Forall₂ R as bs →
      ∀ b ∈ bs, ∃ a ∈ as, R a b := by
  intro as bs h
  induction h with
  | nil => intro b hb; cases hb
  | cons hR _ ih =>
    intro b hb
    rcases List.mem_cons.1 hb with hb | hb
    · subst hb; exact ⟨_, List.mem_cons_self _ _, hR⟩
    · rcases ih b hb with ⟨a, ha, hRa⟩
      exact ⟨a, List.mem_cons_of_mem _ ha, hRa⟩

/-- lookupRun on text that does not normalize to the empty string makes
one engine call and projects the returned documents. -/
theorem lookupRun_nonblank (setEnum : List Str → List Str)
    (engine : SearchRequest → EngineResponse) (s : Str)
    (hne : normalizeText s ≠ []) (ac hl : Bool) (off lim : Int)
    (bt : List Str) (op ep ot : Str) (dbg : Option DebugOptions) :
    lookupRun setEnum engine s ac hl off lim bt op ep ot dbg =
      (projectDocs setEnum hl dbg
        (engine (buildSearchRequest (normalizeText s) ac hl off lim bt op ep ot dbg)).highlighting
        (explainInfoOf (engine (buildSearchRequest (normalizeText s) ac hl off lim bt op ep ot dbg)))
        (finalDebugPayload dbg (engine (buildSearchRequest (normalizeText s) ac hl off lim bt op ep ot dbg)))
        (engine (buildSearchRequest (normalizeText s) ac hl off lim bt op ep ot dbg)).docs, 1) := by
  simp [lookupRun, hne]

/-- The engine-call count of one lookup. -/
theorem lookupRun_snd (setEnum : List Str → List Str)
    (engine : SearchRequest → EngineResponse) (s : Str) (ac hl : Bool)
    (off lim : Int) (bt : List Str) (op ep ot : Str)
    (dbg : Option DebugOptions) :
    (lookupRun setEnum engine s ac hl off lim bt op ep ot dbg).2 = callsUsed s := by
  by_cases hne : normalizeText s = [] <;> simp [lookupRun, callsUsed, hne]

/-- alookup over a Python dict assignment. -/
theorem alookup_dictUpsert {α : Type} (k : Str) (v : α) :
    ∀ (l : List (Str × α)) (s : Str),
      alookup s (dictUpsert k v l) = if s = k then some v else alookup s l := by
  intro l
  induction l with
  | nil =>
    intro s
    show (if k = s then some v else alookup s []) = if s = k then some v else alookup s []
    by_cases h : s = k
    · rw [if_pos h.symm, if_pos h]
    · rw [if_neg (fun hc : k = s => h hc.symm), if_neg h]
  | cons p rest ih =>
    intro s
    obtain ⟨k2, v2⟩ := p
    show alookup s (if k2 = k then (k, v) :: rest else (k2, v2) :: dictUpsert k v rest)
      = if s = k then some v else alookup s ((k2, v2) :: rest)
    by_cases h1 : k2 = k
    · rw [if_pos h1]
      show (if k = s then some v else alookup s rest)
        = if s = k then some v else alookup s ((k2, v2) :: rest)
      by_cases h2 : s = k
      · rw [if_pos h2.symm, if_pos h2]
      · rw [if_neg (fun hc : k = s => h2 hc.symm), if_neg h2]
        show alookup s rest = if k2 = s then some v2 else alookup s rest
        rw [if_neg (fun hc : k2 = s => h2 (hc.symm.trans h1))]
    · rw [if_neg h1]
      show (if k2 = s then some v2 else alookup s (dictUpsert k v rest))
        = if s = k then some v else alookup s ((k2, v2) :: rest)
      by_cases h2 : k2 = s
      · have hsk : ¬ s = k := fun hc => h1 (h2.trans hc)
        rw [if_pos h2, if_neg hsk]
        show some v2 = if k2 = s then some v2 else alookup s rest
        rw [if_pos h2]
      · rw [if_neg h2, ih s]
        show (if s = k then some v else alookup s rest)
          = if s = k then some v else alookup s ((k2, v2) :: rest)
        by_cases h3 : s = k
        · rw [if_pos h3, if_pos h3]
        · rw [if_neg h3, if_neg h3]
          show alookup s rest = if k2 = s then some v2 else alookup s rest
          rw [if_neg h2]

/-- The keys after a Python dict assignment: unchanged when the key is
present, appended otherwise. -/
theorem dictUpsert_map_fst {α : Type} (k : Str) (v : α) :
    ∀ l : List (Str × α),
      (dictUpsert k v l).map Prod.fst =
        if k ∈ l.map Prod.fst then l.map Prod.fst else l.map Prod.fst ++ [k] := by
  intro l
  induction l with
  | nil =>
    show [k] = if k ∈ ([] : List Str) then ([] : List Str) else [] ++ [k]
    rw [if_neg (List.not_mem_nil k)]
    rfl
  | cons p rest ih =>
    obtain ⟨k2, v2⟩ := p
    show (if k2 = k then (k, v) :: rest
        else (k2, v2) :: dictUpsert k v rest).map Prod.fst
      = if k ∈ k2 :: rest.map Prod.fst then k2 :: rest.map Prod.fst
        else (k2 :: rest.map Prod.fst) ++ [k]
    by_cases h1 : k2 = k
    · rw [if_pos h1,
        if_pos (show k ∈ k2 :: rest.map Prod.fst by
          rw [← h1]; exact List.mem_cons_self k2 _)]
      show k :: rest.map Prod.fst = k2 :: rest.map Prod.fst
      rw [h1]
    · rw [if_neg h1]
      show k2 :: (dictUpsert k v rest).map Prod.fst = _
      rw [ih]
      by_cases hm : k ∈ rest.map Prod.fst
      · rw [if_pos hm, if_pos (List.mem_cons_of_mem k2 hm)]
      · rw [if_neg hm,
          if_neg (fun hc => (List.mem_cons.1 hc).elim (fun he => h1 he.symm) hm)]
        rfl

/-- alookup misses exactly the keys that are absent. -/
theorem alookup_eq_none {α : Type} (s : Str) :
    ∀ l : List (Str × α), alookup s l = Option.none ↔ s ∉ l.map Prod.fst := by
  intro l
  induction l with
  | nil => exact ⟨fun _ => List.not_mem_nil s, fun _ => rfl⟩
  | cons p rest ih =>
    obtain ⟨k2, v2⟩ := p
    show (if k2 = s then some v2 else alookup s rest) = Option.none
      ↔ s ∉ k2 :: rest.map Prod.fst
    by_cases h : k2 = s
    · rw [if_pos h]
      constructor
      · intro hc; exact Option.noConfusion hc
      · intro hn
        exact absurd (List.mem_cons.2 (Or.inl h.symm)) hn
    · rw [if_neg h, ih]
      constructor
      · intro hn hc
        exact (List.mem_cons.1 hc).elim (fun he => h he.symm) hn
      · intro hn hc
        exact hn (List.mem_cons_of_mem _ hc)

/-- dedupKeepFirstAux only inspects the membership of seen. -/
theorem dedupKeepFirstAux_congr :
    ∀ (l : List Str) (s1 s2 : List Str), (∀ x, x ∈ s1 ↔ x ∈ s2) →
      dedupKeepFirstAux s1 l = dedupKeepFirstAux s2 l := by
  intro l
  induction l with
  | nil => intro s1 s2 _; rfl
  | cons x xs ih =>
    intro s1 s2 h
    by_cases hx : x ∈ s1
    · simp [dedupKeepFirstAux, hx, (h x).1 hx, ih _ _ h]
    · have hx2 : x ∉ s2 := fun hc => hx ((h x).2 hc)
      simp [dedupKeepFirstAux, hx, hx2]
      exact ih _ _ (fun y => by simp [List.mem_cons, h y])

/-- Membership in the seen-tracking dedup. -/
theorem mem_dedupKeepFirstAux :
    ∀ (l : List Str) (seen : List Str) (x : Str),
      x ∈ dedupKeepFirstAux seen l ↔ x ∈ l ∧ x ∉ seen := by
  intro l
  induction l with
  | nil => intro seen x; simp [dedupKeepFirstAux]
  | cons y ys ih =>
    intro seen x
    by_cases hy : y ∈ seen
    · rw [show dedupKeepFirstAux seen (y :: ys) = dedupKeepFirstAux seen ys from by
        simp [dedupKeepFirstAux, hy]]
      rw [ih]
      constructor
      · rintro ⟨h1, h2⟩
        exact ⟨List.mem_cons_of_mem _ h1, h2⟩
      · rintro ⟨h1, h2⟩
        rcases List.mem_cons.1 h1 with h1 | h1
        · exact absurd (show x ∈ seen by rw [h1]; exact hy) h2
        · exact ⟨h1, h2⟩
    · rw [show dedupKeepFirstAux seen (y :: ys)
          = y :: dedupKeepFirstAux (y :: seen) ys from by
        simp [dedupKeepFirstAux, hy]]
      constructor
      · intro hx
        rcases List.mem_cons.1 hx with h1 | h1
        · subst h1; exact ⟨List.mem_cons_self _ _, hy⟩
        · rcases (ih _ x).1 h1 with ⟨h2, h3⟩
          exact ⟨List.mem_cons_of_mem _ h2,
            fun hc => h3 (List.mem_cons_of_mem _ hc)⟩
      · rintro ⟨h1, h2⟩
        rcases List.mem_cons.1 h1 with h1 | h1
        · rw [h1]; exact List.mem_cons_self _ _
        · by_cases hxy : x = y
          · rw [hxy]; exact List.mem_cons_self _ _
          · exact List.mem_cons_of_mem _ ((ih _ x).2 ⟨h1, fun hc =>
              (List.mem_cons.1 hc).elim (fun he => hxy he) (fun hs => h2 hs)⟩)

/-- The running invariant of the bulk loop: the keys are the accumulator
keys followed by the first occurrences of the new strings; the call count
grows by one per non-blank string; and each key holds the value written
at the last occurrence of that string. -/
theorem bulkLookupAux_spec (setEnum : List Str → List Str)
    (engine : Nat → SearchRequest → EngineResponse) (q : NameResQuery) :
    ∀ (l : List Str) (acc : List (Str × List LookupResult)) (n : Nat)
      (res : List (Str × List LookupResult)) (m : Nat),
      bulkLookupAux setEnum engine q l acc n = (.ok res, m) →
      res.map Prod.fst = acc.map Prod.fst ++ dedupKeepFirstAux (acc.map Prod.fst) l
      ∧ m = n + l.countP (fun t => !(normalizeText t).isEmpty)
      ∧ ∀ s, alookup s res =
          match lastOkFor setEnum engine q s l n with
          | some v => some v
          | Option.none => alookup s acc := by
  intro l
  induction l with
  | nil =>
    intro acc n res m h
    have h1 : acc = res ∧ n = m := by
      simpa [bulkLookupAux] using h
    obtain ⟨ha, hn⟩ := h1
    subst ha; subst hn
    refine ⟨by simp [dedupKeepFirstAux], by simp, ?_⟩
    intro s
    rfl
  | cons t rest ih =>
    intro acc n res m h
    rcases hE : lookupRun setEnum (engine n) t q.autocomplete q.highlighting
      q.offset q.limit q.biolink_types q.only_prefixes q.exclude_prefixes
      q.only_taxa q.debug with ⟨r1, k⟩
    have hk : k = callsUsed t := by
      have := lookupRun_snd setEnum (engine n) t q.autocomplete q.highlighting
        q.offset q.limit q.biolink_types q.only_prefixes q.exclude_prefixes
        q.only_taxa q.debug
      rw [hE] at this
      exact this
    cases r1 with
    | error e =>
      rw [show bulkLookupAux setEnum engine q (t :: rest) acc n = (.error e, n + k) from by
        simp only [bulkLookupAux, hE]] at h
      exact absurd (congrArg Prod.fst h) (by simp)
    | ok rs1 =>
      rw [show bulkLookupAux setEnum engine q (t :: rest) acc n
          = bulkLookupAux setEnum engine q rest (dictUpsert t rs1 acc) (n + k) from by
        simp only [bulkLookupAux, hE]] at h
      obtain ⟨ih1, ih2, ih3⟩ := ih (dictUpsert t rs1 acc) (n + k) res m h
      refine ⟨?_, ?_, ?_⟩
      · rw [ih1, dictUpsert_map_fst]
        by_cases hm : t ∈ acc.map Prod.fst
        · rw [if_pos hm]
          rw [show dedupKeepFirstAux (acc.map Prod.fst) (t :: rest)
              = dedupKeepFirstAux (acc.map Prod.fst) rest from by
            simp [dedupKeepFirstAux, hm]]
        · rw [if_neg hm]
          rw [show dedupKeepFirstAux (acc.map Prod.fst) (t :: rest)
              = t :: dedupKeepFirstAux (t :: acc.map Prod.fst) rest from by
            simp [dedupKeepFirstAux, hm]]
          rw [dedupKeepFirstAux_congr rest (acc.map Prod.fst ++ [t])
            (t :: acc.map Prod.fst) (fun x => by
              simp [List.mem_append, or_comm])]
          rw [List.append_assoc]
          rfl
      · rw [ih2, hk, callsUsed, List.countP_cons]
        by_cases hb : normalizeText t = []
        · rw [if_pos hb]
          have hbf : (!(normalizeText t).isEmpty) = false := by
            rw [hb]; rfl
          rw [hbf, if_neg Bool.false_ne_true]
          omega
        · rw [if_neg hb]
          have hbt : (!(normalizeText t).isEmpty) = true := by
            cases hnt : normalizeText t with
            | nil => exact absurd hnt hb
            | cons c cs => rfl
          rw [hbt, if_pos rfl]
          omega
      · intro s
        rw [ih3 s]
        rw [show lastOkFor setEnum engine q s (t :: rest) n
            = match lastOkFor setEnum engine q s rest (n + callsUsed t) with
              | some v => some v
              | Option.none =>
                if t = s then
                  (lookupRun setEnum (engine n) t q.autocomplete q.highlighting
                    q.offset q.limit q.biolink_types q.only_prefixes
                    q.exclude_prefixes q.only_taxa q.debug).1.toOption
                else Option.none from rfl]
        rw [← hk, hE]
        cases hL : lastOkFor setEnum engine q s rest (n + k) with
        | some v => rfl
        | none =>
          show alookup s (dictUpsert t rs1 acc)
            = match (if t = s then (Except.ok rs1 : Except Str (List LookupResult)).toOption
                else Option.none) with
              | some v => some v
              | Option.none => alookup s acc
          rw [alookup_dictUpsert]
          by_cases hts : t = s
          · rw [if_pos hts.symm, if_pos hts]
            rfl
          · rw [if_neg (fun hc : s = t => hts hc.symm), if_neg hts]

/- Claim theorems. -/

/-- C1: for every search string that is empty or whitespace-only after
trimming, lookup returns the empty result list without error and performs
no engine call. -/
theorem c1_blank_text_empty_result_no_engine_call
    (setEnum : List Str → List Str) (engine : SearchRequest → EngineResponse)
    (s : Str) (h : pyStrip s = []) (ac hl : Bool) (off lim : Int)
    (bt : List Str) (op ep ot : Str) (dbg : Option DebugOptions) :
    lookupRun setEnum engine s ac hl off lim bt op ep ot dbg = (.ok [], 0) := by
  have hn : normalizeText s = [] := by
    rw [normalizeText, h]
    rfl
  simp [lookupRun, hn]

/-- Witness for C1 at a concrete whitespace-only input. -/
theorem c1_witness :
    lookupRun (fun l => l) (fun _ => ⟨[], [], Option.none⟩) ((" \t ").toList)
      false false 0 10 [] [] [] [] (some DebugOptions.dnone) = (.ok [], 0) :=
  c1_blank_text_empty_result_no_engine_call (fun l => l)
    (fun _ => ⟨[], [], Option.none⟩) ((" \t ").toList) (by decide)
    false false 0 10 [] [] [] [] (some DebugOptions.dnone)

/-- C2: the claim states that the fully-escaped variant backslash-escapes
exactly the bang round-curly-square brackets caret double-quote tilde
star question-mark colon slash plus hyphen backslash set and no other
character; evaluating the implementation at the failing inputs shows the
period and the digits also escaped, because the unescaped hyphen of the
character class forms the codepoint range from plus to backslash. -/
theorem c2_escapes_characters_outside_listed_set :
    escapeEverything (("a.b").toList) = (("a\\.b").toList)
    ∧ escapeEverything (("covid 19").toList) = (("covid \\1\\9").toList)
    ∧ escClassChar '.' = true ∧ escClassChar '1' = true
    ∧ escapeEverything (("(a)&&b").toList) = (("\\(a\\) b").toList) := by
  decide

/-- C4: for non-empty normalized text the assembled query is the quoted
grouping-safe variant (the text minus double quotes and backslashes),
the OR keyword, and the bracketed fully-escaped variant, which ends in a
star inside the closing bracket exactly when autocomplete is on. -/
theorem c4_query_shape (string_lc : Str) (h : string_lc ≠ [])
    (ac hl : Bool) (off lim : Int) (bt : List Str) (op ep ot : Str)
    (dbg : Option DebugOptions) :
    (buildSearchRequest string_lc ac hl off lim bt op ep ot dbg).query =
      ['"'] ++ string_lc.filter (fun c => decide (c ≠ '"') && decide (c ≠ '\\'))
        ++ (("\" OR (").toList) ++ escapeEverything string_lc
        ++ (if ac then (("*)").toList) else ((")").toList)) := by
  have hg : escapeGroupings string_lc
      = string_lc.filter (fun c => decide (c ≠ '"') && decide (c ≠ '\\')) := by
    rw [escapeGroupings, removeChar, removeChar, List.filter_filter]
    exact List.filter_congr (fun a _ => Bool.and_comm _ _)
  cases ac <;>
    simp [buildSearchRequest, composeQuery, hg, List.append_assoc]

/-- Witness for C4 at a concrete input containing a round bracket. -/
theorem c4_witness :
    (buildSearchRequest (("(a)").toList) true false 0 10 [] [] [] []
        (some DebugOptions.dnone)).query =
      ['"'] ++ (("(a)").toList).filter (fun c => decide (c ≠ '"') && decide (c ≠ '\\'))
        ++ (("\" OR (").toList) ++ escapeEverything (("(a)").toList)
        ++ (if true then (("*)").toList) else ((")").toList)) :=
  c4_query_shape (("(a)").toList) (by decide) true false 0 10 [] [] [] []
    (some DebugOptions.dnone)

/-- C5 counterexample: projecting a concrete document that lacks a score
field yields no result record at all (so in particular none whose score
is the not-a-number sentinel): the empty-string default fails the float
validation. -/
theorem c5_counterexample_no_nan_score :
    ¬ ∃ r : LookupResult,
      projectDoc (fun l => l) false (some DebugOptions.dnone) [] [] Option.none
        ⟨(("d").toList), Option.none, Option.none, Option.none, Option.none,
          Option.none, Option.none, Option.none⟩ = .ok r
      ∧ r.score = PFloat.nan := by
  rintro ⟨r, hr, -⟩
  rw [show projectDoc (fun l => l) false (some DebugOptions.dnone) [] [] Option.none
      ⟨(("d").toList), Option.none, Option.none, Option.none, Option.none,
        Option.none, Option.none, Option.none⟩
      = Except.error (("Input should be a valid number").toList) from by decide] at hr
  exact Except.noConfusion hr

/-- C5 amended: for every document lacking a score field the projection
fails with the float validation error: the absent score is neither
coerced to zero nor to any other number, and no result record is
produced. -/
theorem c5_missing_score_fails_validation (setEnum : List Str → List Str)
    (hl : Bool) (dbg : Option DebugOptions) (hlResp : List (Str × HlEntry))
    (expl : List (Str × Str)) (fd : Option DebugPayload) (doc : SolrDoc)
    (h : doc.score = Option.none) :
    projectDoc setEnum hl dbg hlResp expl fd doc
      = .error (("Input should be a valid number").toList) := by
  simp [projectDoc, projectScore, h]

/-- Witness for the amended C5 at a concrete document. -/
theorem c5_witness :
    projectDoc (fun l => l) true (some DebugOptions.results) [] [] Option.none
      ⟨(("d").toList), some (("C:1").toList), Option.none, Option.none,
        Option.none, Option.none, Option.none, Option.none⟩
      = .error (("Input should be a valid number").toList) :=
  c5_missing_score_fails_validation (fun l => l) true (some DebugOptions.results)
    [] [] Option.none
    ⟨(("d").toList), some (("C:1").toList), Option.none, Option.none,
      Option.none, Option.none, Option.none, Option.none⟩ (by decide)

/-- C3: the claim orders exact-ish fragments before plain-field
fragments; the implementation routes the concatenated fragments through a
Python set whose enumeration order is unspecified, and a legitimate
enumeration (here: reversed) makes the projected labels carry the plain
fragment before the exact-ish one. -/
theorem c3_set_order_can_put_plain_first :
    ∃ f, IsPySetEnum f ∧
      projectDoc f true (some DebugOptions.dnone)
        [((("d").toList), ⟨some [(("e").toList)], some [(("p").toList)],
          Option.none, Option.none⟩)] [] Option.none
        ⟨(("d").toList), Option.none, Option.none, Option.none, Option.none,
          Option.none, Option.none, some 1⟩
      = .ok ⟨[], [],
          [((("labels").toList), [(("p").toList), (("e").toList)]),
            ((("synonyms").toList), [])],
          [], [], [], .num 1, 0, Option.none, Option.none⟩ := by
  refine ⟨fun l => l.dedup.reverse, fun l => ⟨?_, fun x => ?_⟩, ?_⟩
  · exact List.nodup_reverse.2 l.nodup_dedup
  · rw [List.mem_reverse, List.mem_dedup]
  · decide

/-- C7: every projected type carries the namespace marker, and on engine
documents whose stored types are bare (as the engine contract has it) the
projected list is exactly the conditionally-prefixed list of the public
contract. -/
theorem c7_types_always_namespaced (setEnum : List Str → List Str) (hl : Bool)
    (dbg : Option DebugOptions) (hlResp : List (Str × HlEntry))
    (expl : List (Str × Str)) (fd : Option DebugPayload) (doc : SolrDoc)
    (r : LookupResult) (h : projectDoc setEnum hl dbg hlResp expl fd doc = .ok r)
    (hbare : ∀ t ∈ doc.types.getD [],
      ¬ ((("biolink:").toList).isPrefixOf t = true)) :
    (∀ t ∈ r.types, (("biolink:").toList).isPrefixOf t = true)
    ∧ r.types = specNamespacedTypes (doc.types.getD []) := by
  obtain ⟨q, hq, hr⟩ := projectDoc_ok _ _ _ _ _ _ _ _ h
  subst hr
  constructor
  · intro t ht
    rcases List.mem_map.1 ht with ⟨d, hd, hdt⟩
    rw [← hdt, List.isPrefixOf_iff_prefix]
    exact List.prefix_append _ _
  · show (doc.types.getD []).map (fun d => (("biolink:").toList) ++ d)
      = specNamespacedTypes (doc.types.getD [])
    rw [specNamespacedTypes]
    exact List.map_congr_left (fun d hd => by rw [if_neg (hbare d hd)])

/-- Witness for C7 at a concrete document with one bare type. -/
theorem c7_witness :
    (⟨(("C:1").toList), [], [], [], [], [(("biolink:Disease").toList)],
      .num 1, 0, Option.none, Option.none⟩ : LookupResult).types
      = specNamespacedTypes [(("Disease").toList)] :=
  (c7_types_always_namespaced (fun l => l) false (some DebugOptions.dnone) [] []
    Option.none
    ⟨(("d").toList), some (("C:1").toList), Option.none, Option.none,
      Option.none, some [(("Disease").toList)], Option.none, some 1⟩
    ⟨(("C:1").toList), [], [], [], [], [(("biolink:Disease").toList)],
      .num 1, 0, Option.none, Option.none⟩
    (by decide) (by decide)).2

/-- C9 counterexample: with a type list of two blank entries the built
request carries one empty filter clause, not none. -/
theorem c9_counterexample_blank_types_clause :
    (buildSearchRequest (("x").toList) false false 0 10
        [[], [' ']] [] [] [] (some DebugOptions.dnone)).filter = [[]]
    ∧ ([[]] : List Str) ≠ ([] : List Str) := by decide

/-- C9 amended: a non-empty biolink-type list whose entries are all blank
contributes exactly one empty filter clause to the built request (the
join of zero subclauses is still appended), instead of no clause. -/
theorem c9_blank_types_contribute_empty_clause (s : Str) (ac hl : Bool)
    (off lim : Int) (bt : List Str) (h1 : bt ≠ [])
    (h2 : ∀ t ∈ bt, pyStrip t = []) (op ep ot : Str)
    (dbg : Option DebugOptions) :
    (buildSearchRequest s ac hl off lim bt op ep ot dbg).filter
      = [] :: (buildSearchRequest s ac hl off lim [] op ep ot dbg).filter := by
  have hf : biolinkTypeFilters bt = [] := by
    rw [biolinkTypeFilters, List.filterMap_eq_nil_iff]
    intro t ht
    simp [h2 t ht]
  show buildFilters bt op ep ot = [] :: buildFilters [] op ep ot
  rw [buildFilters, buildFilters, if_pos h1, hf,
    if_neg (fun hc : ([] : List Str) ≠ [] => hc rfl)]
  rfl

/-- Witness for the amended C9 at a concrete blank type list. -/
theorem c9_witness :
    (buildSearchRequest (("x").toList) false false 0 10 [[], [' ']]
        (("MONDO").toList) [] [] (some DebugOptions.dnone)).filter
      = [] :: (buildSearchRequest (("x").toList) false false 0 10 []
        (("MONDO").toList) [] [] (some DebugOptions.dnone)).filter :=
  c9_blank_types_contribute_empty_clause (("x").toList) false false 0 10
    [[], [' ']] (by decide) (by decide) (("MONDO").toList) [] []
    (some DebugOptions.dnone)

/-- C10: whenever highlighting is requested, every returned result's
highlighting map has exactly the two keys labels and synonyms, also for
documents the engine supplied no fragments for. -/
theorem c10_highlighting_keys (setEnum : List Str → List Str)
    (engine : SearchRequest → EngineResponse) (s : Str) (ac : Bool)
    (off lim : Int) (bt : List Str) (op ep ot : Str)
    (dbg : Option DebugOptions) (rs : List LookupResult)
    (h : (lookupRun setEnum engine s ac true off lim bt op ep ot dbg).1 = .ok rs) :
    ∀ r ∈ rs, r.highlighting.map Prod.fst
      = [(("labels").toList), (("synonyms").toList)] := by
  intro r hr
  by_cases hne : normalizeText s = []
  · rw [show (lookupRun setEnum engine s ac true off lim bt op ep ot dbg).1
        = .ok [] from by simp [lookupRun, hne]] at h
    rw [← Except.ok.inj h] at hr
    cases hr
  · rw [lookupRun_nonblank setEnum engine s hne ac true off lim bt op ep ot dbg] at h
    have F := projectDocs_forall2 _ _ _ _ _ _ _ _ h
    obtain ⟨doc, hdoc, hp⟩ := forall2_mem_right F r hr
    obtain ⟨q, hq, hre⟩ := projectDoc_ok _ _ _ _ _ _ _ _ hp
    rw [hre]
    simp

/-- Witness for C10: one document without any highlighting fragments. -/
theorem c10_witness :
    (⟨(("C:1").toList), [],
      [((("labels").toList), []), ((("synonyms").toList), [])],
      [], [], [], .num 1, 0, Option.none, Option.none⟩ :
        LookupResult).highlighting.map Prod.fst
      = [(("labels").toList), (("synonyms").toList)] :=
  c10_highlighting_keys (fun l => l)
    (fun _ => ⟨[⟨(("d").toList), some (("C:1").toList), Option.none, Option.none,
      Option.none, Option.none, Option.none, some 1⟩], [], Option.none⟩)
    (("a").toList) false 0 10 [] [] [] [] (some DebugOptions.dnone)
    [⟨(("C:1").toList), [],
      [((("labels").toList), []), ((("synonyms").toList), [])],
      [], [], [], .num 1, 0, Option.none, Option.none⟩]
    (by decide)
    ⟨(("C:1").toList), [],
      [((("labels").toList), []), ((("synonyms").toList), [])],
      [], [], [], .num 1, 0, Option.none, Option.none⟩
    (List.mem_cons_self _ _)

/-- C6: pointwise over the batch, every result carries the shared final
debug payload and, at level results or all, the explain entry found for
its document id; the shared payload is the engine payload with its
explain key replaced by the placeholder exactly when some document of the
batch has an explain entry at those levels; and at level none, with the
engine accordingly returning no debug section, no result carries a debug
or explain value. -/
theorem c6_debug_explain_attachment (setEnum : List Str → List Str)
    (engine : SearchRequest → EngineResponse) (s : Str) (ac hl : Bool)
    (off lim : Int) (bt : List Str) (op ep ot : Str)
    (dbg : Option DebugOptions) (resp : EngineResponse)
    (hne : normalizeText s ≠ [])
    (hresp : engine (buildSearchRequest (normalizeText s) ac hl off lim bt
      op ep ot dbg) = resp)
    (rs : List LookupResult)
    (hrun : (lookupRun setEnum engine s ac hl off lim bt op ep ot dbg).1
      = .ok rs) :
    List.Forall₂ (fun (doc : SolrDoc) (r : LookupResult) =>
        r.debug = finalDebugPayload dbg resp
        ∧ r.explain =
          (if dbg = some DebugOptions.results ∨ dbg = some DebugOptions.dall
           then alookup doc.id (explainInfoOf resp) else Option.none))
      resp.docs rs
    ∧ (∀ d, resp.debug = some d →
        finalDebugPayload dbg resp = some
          ⟨if (dbg = some DebugOptions.results ∨ dbg = some DebugOptions.dall)
              ∧ anyDocHasExplain resp.docs (explainInfoOf resp) = true
            then some placeholderExplain else d.explain, d.rest⟩)
    ∧ (dbg = some DebugOptions.dnone → resp.debug = Option.none →
        ∀ r ∈ rs, r.debug = Option.none ∧ r.explain = Option.none) := by
  rw [lookupRun_nonblank setEnum engine s hne ac hl off lim bt op ep ot dbg,
    hresp] at hrun
  have F := projectDocs_forall2 _ _ _ _ _ _ _ _ hrun
  refine ⟨?_, ?_, ?_⟩
  · refine List.Forall₂.imp ?_ F
    intro doc r hp
    obtain ⟨q, hq, hre⟩ := projectDoc_ok _ _ _ _ _ _ _ _ hp
    rw [hre]
    exact ⟨rfl, rfl⟩
  · intro d hd
    have hub : finalDebugPayload dbg resp =
        if (dbg = some DebugOptions.results ∨ dbg = some DebugOptions.dall)
            ∧ anyDocHasExplain resp.docs (explainInfoOf resp) = true
          then some { d with explain := some placeholderExplain } else some d := by
      rw [finalDebugPayload, hd]
    rw [hub]
    by_cases hc : (dbg = some DebugOptions.results ∨ dbg = some DebugOptions.dall)
        ∧ anyDocHasExplain resp.docs (explainInfoOf resp) = true
    · rw [if_pos hc, if_pos hc]
    · rw [if_neg hc, if_neg hc]
  · intro hdbg hnone r hr
    obtain ⟨doc, hdoc, hp⟩ := forall2_mem_right F r hr
    obtain ⟨q, hq, hre⟩ := projectDoc_ok _ _ _ _ _ _ _ _ hp
    rw [hre]
    subst hdbg
    constructor
    · show finalDebugPayload (some DebugOptions.dnone) resp = Option.none
      rw [finalDebugPayload, hnone]
    · show (if some DebugOptions.dnone = some DebugOptions.results
          ∨ some DebugOptions.dnone = some DebugOptions.dall
          then alookup doc.id (explainInfoOf resp) else Option.none)
        = Option.none
      rw [if_neg (by decide)]

/-- Witness for C6: one document, debug level results, an engine response
with one explain entry. -/
theorem c6_witness :
    List.Forall₂ (fun (doc : SolrDoc) (r : LookupResult) =>
        r.debug = finalDebugPayload (some DebugOptions.results)
          ⟨[⟨(("d").toList), some (("C:1").toList), Option.none, Option.none,
            Option.none, Option.none, Option.none, some 2⟩], [],
            some ⟨some [((("d").toList), (("w").toList))],
              [((("q").toList), (("z").toList))]⟩⟩
        ∧ r.explain =
          (if some DebugOptions.results = some DebugOptions.results
              ∨ some DebugOptions.results = some DebugOptions.dall
           then alookup doc.id (explainInfoOf
            ⟨[⟨(("d").toList), some (("C:1").toList), Option.none, Option.none,
              Option.none, Option.none, Option.none, some 2⟩], [],
              some ⟨some [((("d").toList), (("w").toList))],
                [((("q").toList), (("z").toList))]⟩⟩) else Option.none))
      (⟨[⟨(("d").toList), some (("C:1").toList), Option.none, Option.none,
          Option.none, Option.none, Option.none, some 2⟩], [],
          some ⟨some [((("d").toList), (("w").toList))],
            [((("q").toList), (("z").toList))]⟩⟩ : EngineResponse).docs
      [⟨(("C:1").toList), [], [], [], [], [], .num 2, 0, some (("w").toList),
        some ⟨some placeholderExplain, [((("q").toList), (("z").toList))]⟩⟩] :=
  (c6_debug_explain_attachment (fun l => l)
    (fun _ => ⟨[⟨(("d").toList), some (("C:1").toList), Option.none, Option.none,
      Option.none, Option.none, Option.none, some 2⟩], [],
      some ⟨some [((("d").toList), (("w").toList))],
        [((("q").toList), (("z").toList))]⟩⟩)
    (("a").toList) false false 0 10 [] [] [] [] (some DebugOptions.results)
    ⟨[⟨(("d").toList), some (("C:1").toList), Option.none, Option.none,
      Option.none, Option.none, Option.none, some 2⟩], [],
      some ⟨some [((("d").toList), (("w").toList))],
        [((("q").toList), (("z").toList))]⟩⟩
    (by decide) rfl
    [⟨(("C:1").toList), [], [], [], [], [], .num 2, 0, some (("w").toList),
      some ⟨some placeholderExplain, [((("q").toList), (("z").toList))]⟩⟩]
    (by decide)).1

/-- C8: on success the bulk mapping has one key per distinct input string
in first-occurrence order, the engine is consulted once per occurrence
whose text is non-blank (no prior deduplication), and each present key
holds the result of the last lookup performed for that string. -/
theorem c8_bulk_last_write_wins (setEnum : List Str → List Str)
    (engine : Nat → SearchRequest → EngineResponse) (q : NameResQuery)
    (res : List (Str × List LookupResult)) (m : Nat)
    (h : bulkLookupRun setEnum engine q = (.ok res, m)) :
    res.map Prod.fst = dedupKeepFirst q.strings
    ∧ m = q.strings.countP (fun t => !(normalizeText t).isEmpty)
    ∧ ∀ s ∈ q.strings,
        alookup s res = lastOkFor setEnum engine q s q.strings 0
        ∧ (alookup s res).isSome = true := by
  obtain ⟨h1, h2, h3⟩ := bulkLookupAux_spec setEnum engine q q.strings [] 0 res m h
  refine ⟨by rw [h1]; rfl, by simpa using h2, ?_⟩
  intro s hs
  have hl := h3 s
  have hmem : s ∈ res.map Prod.fst := by
    rw [h1]
    show s ∈ [] ++ dedupKeepFirstAux [] q.strings
    rw [List.nil_append, mem_dedupKeepFirstAux]
    exact ⟨hs, List.not_mem_nil s⟩
  have hsome : (alookup s res).isSome = true := by
    cases hA : alookup s res with
    | some v => rfl
    | none => exact absurd hmem ((alookup_eq_none s res).1 hA)
  refine ⟨?_, hsome⟩
  rw [hl]
  cases hL : lastOkFor setEnum engine q s q.strings 0 with
  | some v => rfl
  | none => rfl

/-- Witness for C8: the same string twice, an engine whose second call
answers differently; the single entry holds the second (last) result. -/
theorem c8_witness :
    alookup (("a").toList)
        [((("a").toList),
          [⟨(("C:2").toList), [], [], [], [], [], .num 2, 0, Option.none,
            Option.none⟩])]
      = lastOkFor (fun l => l)
        (fun n _ => if n = 0 then
          (⟨[⟨(("d").toList), some (("C:1").toList), Option.none, Option.none,
            Option.none, Option.none, Option.none, some 1⟩], [], Option.none⟩
            : EngineResponse)
        else
          (⟨[⟨(("d").toList), some (("C:2").toList), Option.none, Option.none,
            Option.none, Option.none, Option.none, some 2⟩], [], Option.none⟩
            : EngineResponse))
        ⟨[(("a").toList), (("a").toList)], false, false, 0, 10, [], [], [], [],
          some DebugOptions.dnone⟩
        (("a").toList) [(("a").toList), (("a").toList)] 0
    ∧ (alookup (("a").toList)
        [((("a").toList),
          [(⟨(("C:2").toList), [], [], [], [], [], .num 2, 0, Option.none,
            Option.none⟩ : LookupResult)])]).isSome = true
    ∧ lastOkFor (fun l => l)
        (fun n _ => if n = 0 then
          (⟨[⟨(("d").toList), some (("C:1").toList), Option.none, Option.none,
            Option.none, Option.none, Option.none, some 1⟩], [], Option.none⟩
            : EngineResponse)
        else
          (⟨[⟨(("d").toList), some (("C:2").toList), Option.none, Option.none,
            Option.none, Option.none, Option.none, some 2⟩], [], Option.none⟩
            : EngineResponse))
        ⟨[(("a").toList), (("a").toList)], false, false, 0, 10, [], [], [], [],
          some DebugOptions.dnone⟩
        (("a").toList) [(("a").toList), (("a").toList)] 0
      = some [⟨(("C:2").toList), [], [], [], [], [], .num 2, 0, Option.none,
          Option.none⟩] := by
  have h := c8_bulk_last_write_wins (fun l => l)
    (fun n _ => if n = 0 then
      (⟨[⟨(("d").toList), some (("C:1").toList), Option.none, Option.none,
        Option.none, Option.none, Option.none, some 1⟩], [], Option.none⟩
        : EngineResponse)
    else
      (⟨[⟨(("d").toList), some (("C:2").toList), Option.none, Option.none,
        Option.none, Option.none, Option.none, some 2⟩], [], Option.none⟩
        : EngineResponse))
    ⟨[(("a").toList), (("a").toList)], false, false, 0, 10, [], [], [], [],
      some DebugOptions.dnone⟩
    [((("a").toList),
      [⟨(("C:2").toList), [], [], [], [], [], .num 2, 0, Option.none,
        Option.none⟩])]
    2 (by decide)
  exact ⟨(h.2.2 (("a").toList) (by decide)).1,
    (h.2.2 (("a").toList) (by decide)).2,
    by decide⟩

end NameRes
